import Mathlib

/-!
Shallow embedding of the LinguaMentor API vocabulary core: the per-word
mastery state machine of the updateWordStatus route and the daily
word-selection algorithm of the getDailyWords route. Definitions are
translated from the Express route handlers; JavaScript numbers holding
timestamps are modelled as integer milliseconds, counters as naturals,
and the unseeded Math.random shuffles as explicit function parameters
that the theorems constrain to be permutations of their input.
-/

namespace LinguaMentor

/-- A catalog entry of vocabulary.json: a word with its CEFR level and an
optional list of topic tags (the code guards on the tags field being
present before calling includes). -/
structure CatalogEntry where
  word : String
  level : String
  tags : Option (List String)
deriving Repr, DecidableEq

/-- A word-progress document as read from or written to the per-user
collection, and also the shape of the entries of a daily selection.
The status field is an arbitrary optional string because the handlers
test it dynamically; the catalog metadata spread into synthesized
entries (level, tags) is dropped here since no selection or update step
reads it after the spread. The last_seen field is a millisecond
timestamp or absent. -/
structure WordRecord where
  word : String
  status : Option String
  correct_streak : Nat
  wrong_count : Nat
  last_seen : Option Int
deriving Repr, DecidableEq

/-- The daily selection target size, TARGET_COUNT = 8 in both modes. -/
def TARGET_COUNT : Nat := 8

/-- The cool-down threshold in hours, COOL_DOWN_HOURS = 20. -/
def COOL_DOWN_HOURS : Int := 20

/-- Embedding of the isCool closure of getDailyWords: a timestamp is cool
when absent or when the elapsed time strictly exceeds 20 hours. The
source computes diffHours = (now - lastSeen) / (1000*60*60) as a float
and tests diffHours > COOL_DOWN_HOURS; over integer millisecond
timestamps this is equivalent to the integer comparison used here. -/
def isCool (now : Int) (timestamp : Option Int) : Bool :=
  match timestamp with
  | none => true
  | some lastSeen => decide (COOL_DOWN_HOURS * (1000 * 60 * 60) < now - lastSeen)

/-- The keys of the categories object of getDailyWords. -/
def categoryKeys : List String := ["new", "learning", "weak", "known"]

/-- Which category list a snapshot document is pushed into, mirroring the
forEach body: a falsy status (absent or empty) is pushed nowhere, a
status that is one of the four keys goes to its own list, and any other
truthy status falls back to the learning list. -/
def bucketOf (r : WordRecord) : Option String :=
  match r.status with
  | none => none
  | some s =>
    if s = "" then none
    else if s ∈ categoryKeys then some s
    else some "learning"

/-- The category list for a given key, as built by the snapshot forEach. -/
def catBucket (snapshot : List WordRecord) (key : String) : List WordRecord :=
  snapshot.filter (fun r => bucketOf r == some key)

/-- The word keys present in the userWordsMap: the map is keyed by the
word field of each document. -/
def snapWords (snapshot : List WordRecord) : List String :=
  snapshot.map (fun r => r.word)

/-- Lookup in the userWordsMap. Map.set overwrites, so the map holds the
last document of the snapshot bearing each word. -/
def mapGet (snapshot : List WordRecord) (w : String) : Option WordRecord :=
  snapshot.reverse.find? (fun r => r.word == w)

/-- The word list of a record list, for duplicate-freedom statements. -/
def wordsOf (l : List WordRecord) : List String :=
  l.map (fun r => r.word)

/-- The word list of a catalog list. -/
def catWords (l : List CatalogEntry) : List String :=
  l.map (fun c => c.word)

/-- A synthesized New entry: spread of a catalog word with status new and
zeroed counters, as built for the new pools of both selection modes. -/
def newEntry (c : CatalogEntry) : WordRecord :=
  { word := c.word, status := some "new", correct_streak := 0, wrong_count := 0,
    last_seen := none }

/-- A shuffle site of the source (arr.sort with a random comparator)
always returns a permutation of its input; the selection functions take
each call site of shuffle as a function parameter and the theorems
assume this property of it. -/
def IsShuffler {α : Type} (sh : List α → List α) : Prop :=
  ∀ l : List α, (sh l).Perm l

/-! ### Topic mode of getDailyWords -/

/-- Embedding of the toLowerCase call on the request topic, restricted to
the basic-latin case mapping of Char.toLower, written directly on the
character list so that facts about it reduce to list lemmas. -/
def jsToLower (s : String) : String :=
  ⟨s.data.map Char.toLower⟩

/-- Whether a catalog entry passes the topic filter: tags present and
containing the (already lowercased) topic string. -/
def hasTag (c : CatalogEntry) (topic : String) : Bool :=
  match c.tags with
  | none => false
  | some ts => topic ∈ ts

/-- The three destinations of a snapshot-matched word in topic mode. -/
inductive TopicBucket where
  | review
  | reviewFallback
  | knownFallback
deriving Repr, DecidableEq

/-- Classification of a matched user record in the topic-mode forEach:
known status goes to the known fallback, learning-and-not-cool goes to
the review fallback, and everything else goes to the review list. -/
def topicClass (now : Int) (u : WordRecord) : TopicBucket :=
  if u.status == some "known" then .knownFallback
  else if u.status == some "learning" && !(isCool now u.last_seen) then .reviewFallback
  else .review

/-- The topic-mode partition of the filtered catalog words: each word
present in the snapshot map contributes its user record to the bucket
chosen by topicClass, and each absent word contributes a synthesized New
entry, preserving catalog order as the forEach pushes do. The four
components are topicNew, topicReview, topicReviewFallback and
topicKnownFallback. -/
def topicPartition (snapshot : List WordRecord) (now : Int) :
    List CatalogEntry → List WordRecord × List WordRecord × List WordRecord × List WordRecord
  | [] => ([], [], [], [])
  | w :: rest =>
    let (ns, rs, rfs, kfs) := topicPartition snapshot now rest
    match mapGet snapshot w.word with
    | some userData =>
      match topicClass now userData with
      | .knownFallback => (ns, rs, rfs, userData :: kfs)
      | .reviewFallback => (ns, rs, userData :: rfs, kfs)
      | .review => (ns, userData :: rs, rfs, kfs)
    | none => (newEntry w :: ns, rs, rfs, kfs)

/-- The topic-mode selection: lowercase the request topic, filter the
catalog by it, partition, then push all shuffled New words, top up from
Review, then ReviewFallback, then KnownFallback, and finally truncate to
TARGET_COUNT. Each sh parameter stands for one shuffle call site. -/
def selectTopic (vocabulary : List CatalogEntry) (snapshot : List WordRecord)
    (rawTopic : String) (now : Int)
    (shNew shReview shReviewFb shKnownFb : List WordRecord → List WordRecord) :
    List WordRecord :=
  let topic := jsToLower rawTopic
  let topicWords := vocabulary.filter (fun w => hasTag w topic)
  let (topicNew, topicReview, topicReviewFallback, topicKnownFallback) :=
    topicPartition snapshot now topicWords
  let selected := shNew topicNew
  let selected :=
    if selected.length < TARGET_COUNT then
      selected ++ (shReview topicReview).take (TARGET_COUNT - selected.length)
    else selected
  let selected :=
    if selected.length < TARGET_COUNT then
      selected ++ (shReviewFb topicReviewFallback).take (TARGET_COUNT - selected.length)
    else selected
  let selected :=
    if selected.length < TARGET_COUNT then
      selected ++ (shKnownFb topicKnownFallback).take (TARGET_COUNT - selected.length)
    else selected
  selected.take TARGET_COUNT

/-! ### Untargeted mode of getDailyWords -/

/-- The per-bucket quotas of the distribution object (the new quota of 4
is declared but unused: the new fill is computed from TARGET_COUNT). -/
def distributionWeak : Nat := 2

/-- The learning quota of the distribution object. -/
def distributionLearning : Nat := 2

/-- The CEFR levels counted as advanced when biasing the new pool. -/
def advancesLevels : List String := ["B1", "B2", "C1", "C2"]

/-- The untargeted selection: up to 2 shuffled Weak, up to 2 shuffled cool
Learning, then new words up to TARGET_COUNT (preferring the hard-level
pool when it alone can cover the need), then a Known top-up, and a final
render shuffle. Natural subtraction realizes the clamp of neededNew at
zero. Each sh parameter stands for one shuffle call site. -/
def selectUntargeted (vocabulary : List CatalogEntry) (snapshot : List WordRecord)
    (now : Int)
    (shWeak shLearning shKnown shFinal : List WordRecord → List WordRecord)
    (shNew : List CatalogEntry → List CatalogEntry) : List WordRecord :=
  let categoriesWeak := catBucket snapshot "weak"
  let categoriesLearning := catBucket snapshot "learning"
  let categoriesKnown := catBucket snapshot "known"
  let availableLearning := categoriesLearning.filter (fun w => isCool now w.last_seen)
  let selectedWords :=
    (shWeak categoriesWeak).take distributionWeak
      ++ (shLearning availableLearning).take distributionLearning
  let neededNew := TARGET_COUNT - selectedWords.length
  let newWordsPool := vocabulary.filter (fun v => !(snapWords snapshot).contains v.word)
  let hardWords := newWordsPool.filter (fun w => w.level ∈ advancesLevels)
  let filteredNewPool := if neededNew ≤ hardWords.length then hardWords else newWordsPool
  let pickedNew := ((shNew filteredNewPool).take neededNew).map newEntry
  let selectedWords := selectedWords ++ pickedNew
  let selectedWords :=
    if selectedWords.length < TARGET_COUNT then
      selectedWords ++ (shKnown categoriesKnown).take (TARGET_COUNT - selectedWords.length)
    else selectedWords
  shFinal selectedWords

/-! ### Response stats -/

/-- The stats object of the untargeted response. -/
structure UntargetedStats where
  totalKnown : Nat
  totalLearning : Nat
  totalWeak : Nat
deriving Repr, DecidableEq

/-- The stats object of the topic-mode response: the profile streak and a
totalLearned count, with no learning or weak count. -/
structure TopicStats where
  streak : Nat
  totalLearned : Nat
deriving Repr, DecidableEq

/-- The stats of the untargeted response body: the lengths of the known,
learning and weak category lists of the snapshot. -/
def untargetedStats (snapshot : List WordRecord) : UntargetedStats :=
  { totalKnown := (catBucket snapshot "known").length
    totalLearning := (catBucket snapshot "learning").length
    totalWeak := (catBucket snapshot "weak").length }

/-- The stats of the topic-mode response body: the streak read from the
user profile (0 when absent) and the length of the known category. -/
def topicStats (snapshot : List WordRecord) (profileStreak : Nat) : TopicStats :=
  { streak := profileStreak
    totalLearned := (catBucket snapshot "known").length }

/-- The full untargeted response: selected words plus stats. -/
def untargetedResponse (vocabulary : List CatalogEntry) (snapshot : List WordRecord)
    (now : Int)
    (shWeak shLearning shKnown shFinal : List WordRecord → List WordRecord)
    (shNew : List CatalogEntry → List CatalogEntry) :
    List WordRecord × UntargetedStats :=
  (selectUntargeted vocabulary snapshot now shWeak shLearning shKnown shFinal shNew,
   untargetedStats snapshot)

/-- The full topic-mode response: selected words plus stats. -/
def topicResponse (vocabulary : List CatalogEntry) (snapshot : List WordRecord)
    (rawTopic : String) (now : Int) (profileStreak : Nat)
    (shNew shReview shReviewFb shKnownFb : List WordRecord → List WordRecord) :
    List WordRecord × TopicStats :=
  (selectTopic vocabulary snapshot rawTopic now shNew shReview shReviewFb shKnownFb,
   topicStats snapshot profileStreak)

/-! ### Derived quantities used by the stated properties -/

/-- The size of the union of the untargeted buckets (New pool, cool
Learning, Weak, Known); for word-distinct data the buckets are disjoint
so the union size is the sum of the sizes. -/
def untargetedBucketTotal (vocabulary : List CatalogEntry) (snapshot : List WordRecord)
    (now : Int) : Nat :=
  (vocabulary.filter (fun v => !(snapWords snapshot).contains v.word)).length
    + ((catBucket snapshot "learning").filter (fun w => isCool now w.last_seen)).length
    + (catBucket snapshot "weak").length
    + (catBucket snapshot "known").length

/-- The untargeted bucket total with the Weak and cool-Learning
contributions capped at their quotas of 2: the quantity the untargeted
selection size actually saturates at. -/
def untargetedCappedTotal (vocabulary : List CatalogEntry) (snapshot : List WordRecord)
    (now : Int) : Nat :=
  min distributionWeak (catBucket snapshot "weak").length
    + min distributionLearning
        ((catBucket snapshot "learning").filter (fun w => isCool now w.last_seen)).length
    + (vocabulary.filter (fun v => !(snapWords snapshot).contains v.word)).length
    + (catBucket snapshot "known").length

/-- The size of the union of the four topic-mode buckets; one catalog
word contributes to exactly one bucket, so the union size is the sum of
the component sizes. -/
def topicBucketTotal (vocabulary : List CatalogEntry) (snapshot : List WordRecord)
    (rawTopic : String) (now : Int) : Nat :=
  let p := topicPartition snapshot now
    (vocabulary.filter (fun w => hasTag w (jsToLower rawTopic)))
  p.1.length + p.2.1.length + p.2.2.1.length + p.2.2.2.length

/-- The number of snapshot records bearing exactly the given status. -/
def statusCount (snapshot : List WordRecord) (s : String) : Nat :=
  (snapshot.filter (fun r => r.status == some s)).length

/-- The records of the matched topic words falling in a given bucket, in
catalog order: the closed form of the non-new topicPartition
components. -/
def matchedInClass (snapshot : List WordRecord) (now : Int) (b : TopicBucket)
    (ws : List CatalogEntry) : List WordRecord :=
  ws.filterMap (fun w =>
    match mapGet snapshot w.word with
    | some u => if topicClass now u == b then some u else none
    | none => none)

/-- Whether a matched topic word's stored record is classified into the
given bucket. -/
def matchedCond (snapshot : List WordRecord) (now : Int) (b : TopicBucket)
    (w : CatalogEntry) : Bool :=
  match mapGet snapshot w.word with
  | some u => topicClass now u == b
  | none => false

/-! ### Concrete data for instance checks -/

/-- A snapshot record with the given word and the weak status. -/
def weakRec (w : String) : WordRecord :=
  { word := w, status := some "weak", correct_streak := 0, wrong_count := 1,
    last_seen := none }

/-- A snapshot of eight distinct weak words. -/
def eightWeak : List WordRecord :=
  (List.range 8).map (fun i => weakRec (toString i))

/-- A one-entry catalog with one tagged word. -/
def cexVocab : List CatalogEntry :=
  [{ word := "amber", level := "A1", tags := some ["t"] }]

/-- A one-record snapshot holding the tagged word with weak status. -/
def cexSnap : List WordRecord := [weakRec "amber"]

/-- A stored record with no status field. -/
def noStatusRec : WordRecord :=
  { word := "ghost", status := none, correct_streak := 0, wrong_count := 0,
    last_seen := none }

/-- A one-record snapshot holding only the status-less record. -/
def ghostSnap : List WordRecord := [noStatusRec]

/-! ### Mastery state machine of updateWordStatus -/

/-- The transaction body of updateWordStatus applied to the current
record: on a correct answer increment the streak and promote (known at
streak 3, or learning from new or weak); on a wrong answer reset the
streak, increment the wrong count and mark weak (the learning else
branch guards on the incremented wrong count being below 1). Always
stamp last_seen with the server time. -/
def applyAnswer (data : WordRecord) (isCorrect : Bool) (now : Int) : WordRecord :=
  let data :=
    if isCorrect then
      let streak := data.correct_streak + 1
      if 3 ≤ streak then
        { data with correct_streak := streak, status := some "known" }
      else if data.status == some "new" || data.status == some "weak" then
        { data with correct_streak := streak, status := some "learning" }
      else
        { data with correct_streak := streak }
    else
      let wrongs := data.wrong_count + 1
      if 1 ≤ wrongs then
        { data with correct_streak := 0, wrong_count := wrongs, status := some "weak" }
      else
        { data with correct_streak := 0, wrong_count := wrongs, status := some "learning" }
  { data with last_seen := some now }

/-- The fresh record built when no document exists for the word. -/
def freshRecord (word : String) : WordRecord :=
  { word := word, status := some "new", correct_streak := 0, wrong_count := 0,
    last_seen := none }

/-- The record persisted by one updateWordStatus transaction, given the
previously stored document (or none). The merge of catalog metadata
into a first write touches no field modelled here. -/
def updateWordStatus (stored : Option WordRecord) (word : String) (isCorrect : Bool)
    (now : Int) : WordRecord :=
  let data :=
    match stored with
    | some d => d
    | none => freshRecord word
  applyAnswer data isCorrect now

/-! ## Theorems -/

open List

/-- A record whose status is one of the four data-model statuses is
bucketed under its own status string. -/
theorem bucketOf_eq_status (r : WordRecord)
    (h : r.status = some "new" ∨ r.status = some "learning" ∨
      r.status = some "weak" ∨ r.status = some "known") :
    bucketOf r = r.status := by
  rcases h with h | h | h | h <;> simp [bucketOf, h, categoryKeys]

/-- Over a snapshot of well-formed statuses, each category list is the
plain status filter, so its length is the status count. -/
theorem catBucket_statusCount (snapshot : List WordRecord) (key : String)
    (h : ∀ r ∈ snapshot, r.status = some "new" ∨ r.status = some "learning" ∨
      r.status = some "weak" ∨ r.status = some "known") :
    (catBucket snapshot key).length = statusCount snapshot key := by
  unfold catBucket statusCount
  rw [List.filter_congr]
  intro r hr
  rw [bucketOf_eq_status r (h r hr)]

/-- C3: any answer submission with isCorrect false yields status weak,
a zero streak and a wrong count incremented by one, whatever the prior
record was; the learning else branch of the incorrect path never fires
since the incremented wrong count is always at least one. -/
theorem applyAnswer_incorrect_weak (d : WordRecord) (now : Int) :
    applyAnswer d false now =
      { d with
        status := some "weak"
        correct_streak := 0
        wrong_count := d.wrong_count + 1
        last_seen := some now } := by
  simp [applyAnswer]

/-- C4: a correct answer increments the streak, keeps the wrong count,
and sets the status to known at streak 3, to learning from new or weak,
and otherwise leaves it unchanged; in particular a streak of 2 promotes
to known with streak 3, and a weak record with one wrong answer becomes
learning with streak 1 and wrong count 1. -/
theorem applyAnswer_correct_rules (d : WordRecord) (now : Int) (w : String)
    (st : Option String) (wc : Nat) (ls : Option Int) :
    (applyAnswer d true now).correct_streak = d.correct_streak + 1 ∧
    (applyAnswer d true now).wrong_count = d.wrong_count ∧
    (applyAnswer d true now).status =
      (if 3 ≤ d.correct_streak + 1 then some "known"
       else if d.status = some "new" ∨ d.status = some "weak" then some "learning"
       else d.status) ∧
    applyAnswer ⟨w, st, 2, wc, ls⟩ true now = ⟨w, some "known", 3, wc, some now⟩ ∧
    applyAnswer ⟨w, some "weak", 0, 1, ls⟩ true now = ⟨w, some "learning", 1, 1, some now⟩ := by
  refine ⟨?_, ?_, ?_, ?_, ?_⟩ <;> simp [applyAnswer] <;> split_ifs <;> simp_all

/-- C8: the cool-down test is strict on 20 hours of milliseconds: a
last-seen time of 20 hours and one minute ago is cool, one of 19 hours
ago is not, and an absent last-seen time is cool. -/
theorem isCool_boundary (now t : Int) :
    isCool (t + 72060000) (some t) = true ∧
    isCool (t + 68400000) (some t) = false ∧
    isCool now none = true := by
  refine ⟨?_, ?_, rfl⟩ <;> simp [isCool, COOL_DOWN_HOURS]

/-- C9: an answer submission never persists a new status, whatever the
stored record was (including none, and including arbitrary stored
statuses), and whenever the stored status was one of the four
data-model statuses the written record has status learning, weak or
known. -/
theorem updateWordStatus_persists_valid (stored : Option WordRecord) (word : String)
    (isCorrect : Bool) (now : Int)
    (h : ∀ d, stored = some d →
      d.status = some "new" ∨ d.status = some "learning" ∨
      d.status = some "weak" ∨ d.status = some "known") :
    (updateWordStatus stored word isCorrect now).status ≠ some "new" ∧
    ((updateWordStatus stored word isCorrect now).status = some "learning" ∨
     (updateWordStatus stored word isCorrect now).status = some "weak" ∨
     (updateWordStatus stored word isCorrect now).status = some "known") := by
  constructor
  · clear h
    cases stored with
    | none => cases isCorrect <;> simp [updateWordStatus, freshRecord, applyAnswer]
    | some d =>
      cases isCorrect <;> simp [updateWordStatus, applyAnswer] <;> split_ifs <;> simp_all
  · cases stored with
    | none => cases isCorrect <;> simp [updateWordStatus, freshRecord, applyAnswer]
    | some d =>
      have hd := h d rfl
      cases isCorrect <;> simp [updateWordStatus, applyAnswer] <;> split_ifs <;> simp_all

/-- Witness for C9 at a first-ever answer: no stored record, a correct
answer, and the persisted status is among the three valid ones and not
new. -/
theorem updateWordStatus_persists_valid_witness :
    (updateWordStatus none "hello" true 0).status ≠ some "new" ∧
    ((updateWordStatus none "hello" true 0).status = some "learning" ∨
     (updateWordStatus none "hello" true 0).status = some "weak" ∨
     (updateWordStatus none "hello" true 0).status = some "known") :=
  updateWordStatus_persists_valid none "hello" true 0 (fun d hd => by cases hd)

/-- C2 counterexample: two snapshots with different weak counts produce
identical topic-mode responses, so the topic-mode response does not
carry the weak count (it carries only a streak and a known count). -/
theorem topicResponse_stats_cex :
    topicResponse [] [] "t" 0 0 id id id id = topicResponse [] cexSnap "t" 0 0 id id id id ∧
    statusCount cexSnap "weak" = 1 ∧ statusCount ([] : List WordRecord) "weak" = 0 := by
  refine ⟨?_, ?_, ?_⟩ <;> decide

/-- C5 counterexample: a topic-matching snapshot word with weak status is
placed in the top-priority review bucket even though its status is not
learning, against the stated review-bucket characterization. -/
theorem topicPartition_review_cex :
    (topicPartition cexSnap 0 (cexVocab.filter (fun w => hasTag w (jsToLower "t")))).2.1
        = [weakRec "amber"] ∧
    (weakRec "amber").status ≠ some "learning" := by
  refine ⟨?_, ?_⟩ <;> decide

/-- The topic-mode partition in closed form: the new component takes the
matching words absent from the snapshot in catalog order, and each other
component takes the stored records of the matching words it classifies,
in catalog order. -/
theorem topicPartition_closed (snapshot : List WordRecord) (now : Int)
    (ws : List CatalogEntry) :
    topicPartition snapshot now ws =
      ((ws.filter (fun w => (mapGet snapshot w.word).isNone)).map newEntry,
       matchedInClass snapshot now .review ws,
       matchedInClass snapshot now .reviewFallback ws,
       matchedInClass snapshot now .knownFallback ws) := by
  induction ws with
  | nil => rfl
  | cons w rest ih =>
    simp only [topicPartition, ih, matchedInClass, List.filterMap_cons, List.filter_cons]
    cases hm : mapGet snapshot w.word with
    | none => simp [hm]
    | some u => cases hc : topicClass now u <;> simp [hm, hc]

/-- C5 amended: a matched snapshot record lands in the top-priority
review bucket iff its status is not known and it is not a non-cool
learning word, so weak and other statuses also land there; the review
fallback holds exactly the non-cool learning words and the known
fallback exactly the known words, and the review component of the
partition is the list of matched records so classified. -/
theorem topicClass_characterization (now : Int) (u : WordRecord)
    (snapshot : List WordRecord) (ws : List CatalogEntry) :
    (topicClass now u = .review ↔
      ¬ u.status = some "known" ∧
        ¬ (u.status = some "learning" ∧ isCool now u.last_seen = false)) ∧
    (topicClass now u = .reviewFallback ↔
      u.status = some "learning" ∧ isCool now u.last_seen = false) ∧
    (topicClass now u = .knownFallback ↔ u.status = some "known") ∧
    (topicPartition snapshot now ws).2.1 = matchedInClass snapshot now .review ws := by
  refine ⟨?_, ?_, ?_, by rw [topicPartition_closed]⟩ <;>
    simp [topicClass] <;> split_ifs <;> simp_all

/-- C2 amended: the untargeted response carries the known, learning and
weak counts of the snapshot, while the topic-mode response instead
carries only the profile streak and a total-learned count equal to the
known count, with no learning or weak count. Stated over snapshots whose
stored statuses are well formed. -/
theorem dailyStats_amended
    (vocabulary : List CatalogEntry) (snapshot : List WordRecord) (now : Int)
    (rawTopic : String) (profileStreak : Nat)
    (shWeak shLearning shKnown shFinal shNew shReview shReviewFb shKnownFb :
      List WordRecord → List WordRecord)
    (shNewPool : List CatalogEntry → List CatalogEntry)
    (h : ∀ r ∈ snapshot, r.status = some "new" ∨ r.status = some "learning" ∨
      r.status = some "weak" ∨ r.status = some "known") :
    (untargetedResponse vocabulary snapshot now shWeak shLearning shKnown shFinal shNewPool).2 =
      { totalKnown := statusCount snapshot "known"
        totalLearning := statusCount snapshot "learning"
        totalWeak := statusCount snapshot "weak" } ∧
    (topicResponse vocabulary snapshot rawTopic now profileStreak
        shNew shReview shReviewFb shKnownFb).2 =
      { streak := profileStreak
        totalLearned := statusCount snapshot "known" } := by
  constructor
  · simp [untargetedResponse, untargetedStats, catBucket_statusCount _ _ h]
  · simp [topicResponse, topicStats, catBucket_statusCount _ _ h]

/-- Witness for the amended stats claim on a concrete one-record weak
snapshot. -/
theorem dailyStats_amended_witness :
    (∀ r ∈ cexSnap, r.status = some "new" ∨ r.status = some "learning" ∨
      r.status = some "weak" ∨ r.status = some "known") ∧
    ((untargetedResponse [] cexSnap 0 id id id id id).2 =
      { totalKnown := statusCount cexSnap "known"
        totalLearning := statusCount cexSnap "learning"
        totalWeak := statusCount cexSnap "weak" } ∧
    (topicResponse [] cexSnap "t" 0 5 id id id id).2 =
      { streak := 5
        totalLearned := statusCount cexSnap "known" }) :=
  ⟨by decide, dailyStats_amended [] cexSnap 0 "t" 5 id id id id id id id id id (by decide)⟩

/-- The untargeted selection size in closed form: the target count
saturating the capped bucket total, in which Weak and cool Learning
contribute at most their quotas of two. -/
theorem length_selectUntargeted (vocabulary : List CatalogEntry)
    (snapshot : List WordRecord) (now : Int)
    (shWeak shLearning shKnown shFinal : List WordRecord → List WordRecord)
    (shNewPool : List CatalogEntry → List CatalogEntry)
    (h1 : IsShuffler shWeak) (h2 : IsShuffler shLearning) (h3 : IsShuffler shKnown)
    (h4 : IsShuffler shFinal) (h5 : IsShuffler shNewPool) :
    (selectUntargeted vocabulary snapshot now shWeak shLearning shKnown shFinal
        shNewPool).length
      = min TARGET_COUNT (untargetedCappedTotal vocabulary snapshot now) := by
  have hle := List.length_filter_le
    (fun w => w.level ∈ advancesLevels)
    (vocabulary.filter (fun v => !(snapWords snapshot).contains v.word))
  simp only [selectUntargeted, untargetedCappedTotal]
  rw [List.Perm.length_eq (h4 _)]
  simp only [List.length_append, List.length_take, List.length_map,
    List.Perm.length_eq (h1 _), List.Perm.length_eq (h2 _), List.Perm.length_eq (h3 _),
    List.Perm.length_eq (h5 _), apply_ite List.length, TARGET_COUNT, distributionWeak,
    distributionLearning]
  split
  all_goals split
  all_goals omega

/-- The topic-mode selection size in closed form: the target count
saturating the full bucket total. -/
theorem length_selectTopic (vocabulary : List CatalogEntry) (snapshot : List WordRecord)
    (rawTopic : String) (now : Int)
    (shNew shReview shReviewFb shKnownFb : List WordRecord → List WordRecord)
    (h1 : IsShuffler shNew) (h2 : IsShuffler shReview) (h3 : IsShuffler shReviewFb)
    (h4 : IsShuffler shKnownFb) :
    (selectTopic vocabulary snapshot rawTopic now shNew shReview shReviewFb
        shKnownFb).length
      = min TARGET_COUNT (topicBucketTotal vocabulary snapshot rawTopic now) := by
  simp only [selectTopic, topicBucketTotal, topicPartition_closed]
  simp only [List.length_append, List.length_take, List.length_map,
    List.Perm.length_eq (h1 _), List.Perm.length_eq (h2 _), List.Perm.length_eq (h3 _),
    List.Perm.length_eq (h4 _), TARGET_COUNT, apply_ite List.length]
  repeat' split
  all_goals omega

/-- C1 counterexample: a snapshot of eight weak words with an empty
catalog has an untargeted bucket union of size exactly the target count,
yet the untargeted selection returns only two entries, because the weak
quota of two is never topped up from the weak bucket. -/
theorem dailySelection_size_cex :
    untargetedBucketTotal [] eightWeak 0 = TARGET_COUNT ∧
    (selectUntargeted [] eightWeak 0 id id id id id).length = 2 := by
  refine ⟨?_, ?_⟩ <;> decide

/-- C1 amended: both modes return at most the target count of eight and
never pad; the topic-mode size is the target count saturating the
bucket-union total, so it hits eight whenever the union has at least
eight words, but the untargeted size saturates the capped total in
which Weak and cool Learning contribute at most two each, so its
eight-word guarantee needs the capped total, not the union, to reach
eight. -/
theorem dailySelection_size_amended (vocabulary : List CatalogEntry)
    (snapshot : List WordRecord) (rawTopic : String) (now : Int)
    (shWeak shLearning shKnown shFinal shNew shReview shReviewFb shKnownFb :
      List WordRecord → List WordRecord)
    (shNewPool : List CatalogEntry → List CatalogEntry)
    (h1 : IsShuffler shWeak) (h2 : IsShuffler shLearning) (h3 : IsShuffler shKnown)
    (h4 : IsShuffler shFinal) (h5 : IsShuffler shNewPool)
    (h6 : IsShuffler shNew) (h7 : IsShuffler shReview) (h8 : IsShuffler shReviewFb)
    (h9 : IsShuffler shKnownFb) :
    (selectUntargeted vocabulary snapshot now shWeak shLearning shKnown shFinal
        shNewPool).length
      = min TARGET_COUNT (untargetedCappedTotal vocabulary snapshot now) ∧
    (selectUntargeted vocabulary snapshot now shWeak shLearning shKnown shFinal
        shNewPool).length ≤ TARGET_COUNT ∧
    (selectTopic vocabulary snapshot rawTopic now shNew shReview shReviewFb
        shKnownFb).length
      = min TARGET_COUNT (topicBucketTotal vocabulary snapshot rawTopic now) ∧
    (selectTopic vocabulary snapshot rawTopic now shNew shReview shReviewFb
        shKnownFb).length ≤ TARGET_COUNT ∧
    (TARGET_COUNT ≤ topicBucketTotal vocabulary snapshot rawTopic now →
      (selectTopic vocabulary snapshot rawTopic now shNew shReview shReviewFb
          shKnownFb).length = TARGET_COUNT) := by
  have hu := length_selectUntargeted vocabulary snapshot now shWeak shLearning shKnown
    shFinal shNewPool h1 h2 h3 h4 h5
  have ht := length_selectTopic vocabulary snapshot rawTopic now shNew shReview
    shReviewFb shKnownFb h6 h7 h8 h9
  refine ⟨hu, ?_, ht, ?_, ?_⟩ <;> omega

/-- A subpermutation of a duplicate-free list is duplicate-free. -/
theorem subperm_nodup {α : Type} {l1 l2 : List α} (h : l1 <+~ l2) (h2 : l2.Nodup) :
    l1.Nodup := by
  obtain ⟨l, hp, hs⟩ := h
  exact hp.nodup (h2.sublist hs)

/-- Subpermutations may be appended side by side. -/
theorem subperm_append_both {α : Type} {a b a2 b2 : List α} (ha : a2 <+~ a)
    (hb : b2 <+~ b) : a2 ++ b2 <+~ a ++ b := by
  obtain ⟨la, hpa, hsa⟩ := ha
  obtain ⟨lb, hpb, hsb⟩ := hb
  exact ⟨la ++ lb, hpa.append hpb, hsa.append hsb⟩

/-- A list is a subpermutation of itself extended on the right. -/
theorem subperm_append_left_self {α : Type} {a : List α} (b : List α) : a <+~ a ++ b :=
  (List.sublist_append_left a b).subperm

theorem words_append (l1 l2 : List WordRecord) :
    wordsOf (l1 ++ l2) = wordsOf l1 ++ wordsOf l2 := by
  simp [wordsOf]

theorem words_shuffle_perm {sh : List WordRecord → List WordRecord}
    (hsh : IsShuffler sh) (l : List WordRecord) :
    (wordsOf (sh l)).Perm (wordsOf l) :=
  (hsh l).map _

theorem words_take_shuffle_subperm {sh : List WordRecord → List WordRecord}
    (hsh : IsShuffler sh) (l : List WordRecord) (n : Nat) :
    wordsOf ((sh l).take n) <+~ wordsOf l := by
  have h2 : wordsOf ((sh l).take n) <+ wordsOf (sh l) :=
    (List.take_sublist n (sh l)).map _
  exact h2.subperm.trans (words_shuffle_perm hsh l).subperm

theorem words_newEntries (l : List CatalogEntry) :
    wordsOf (l.map newEntry) = catWords l := by
  simp only [wordsOf, catWords, List.map_map]
  exact List.map_congr_left (fun a _ => rfl)

theorem catWords_take_shuffle_subperm {sh : List CatalogEntry → List CatalogEntry}
    (hsh : IsShuffler sh) (l : List CatalogEntry) (n : Nat) :
    catWords ((sh l).take n) <+~ catWords l := by
  have h2 : catWords ((sh l).take n) <+ catWords (sh l) :=
    (List.take_sublist n (sh l)).map _
  exact h2.subperm.trans ((hsh l).map _).subperm

theorem catWords_sublist {l1 l2 : List CatalogEntry} (h : l1 <+ l2) :
    catWords l1 <+ catWords l2 :=
  h.map _

theorem words_sublist {l1 l2 : List WordRecord} (h : l1 <+ l2) :
    wordsOf l1 <+ wordsOf l2 :=
  h.map _

theorem mem_catBucket_iff {snapshot : List WordRecord} {key : String} {r : WordRecord} :
    r ∈ catBucket snapshot key ↔ r ∈ snapshot ∧ bucketOf r = some key := by
  simp [catBucket, List.mem_filter]

/-- On a snapshot with duplicate-free words, two member records with the
same word coincide. -/
theorem eq_of_word_eq {snapshot : List WordRecord} (hw : (wordsOf snapshot).Nodup)
    {r1 r2 : WordRecord} (h1 : r1 ∈ snapshot) (h2 : r2 ∈ snapshot)
    (he : r1.word = r2.word) : r1 = r2 :=
  List.inj_on_of_nodup_map (by simpa [wordsOf] using hw) h1 h2 he

theorem catBucket_words_disjoint {snapshot : List WordRecord}
    (hw : (wordsOf snapshot).Nodup) (k1 k2 : String) (hk : k1 ≠ k2) :
    List.Disjoint (wordsOf (catBucket snapshot k1)) (wordsOf (catBucket snapshot k2)) := by
  intro x hx1 hx2
  simp only [wordsOf, List.mem_map] at hx1 hx2
  obtain ⟨r1, hr1, hw1⟩ := hx1
  obtain ⟨r2, hr2, hw2⟩ := hx2
  rw [mem_catBucket_iff] at hr1 hr2
  cases eq_of_word_eq hw hr1.1 hr2.1 (hw1.trans hw2.symm)
  have hb1 := hr1.2
  have hb2 := hr2.2
  rw [hb1] at hb2
  exact hk (Option.some.inj hb2)

theorem catBucket_words_nodup {snapshot : List WordRecord}
    (hw : (wordsOf snapshot).Nodup) (key : String) :
    (wordsOf (catBucket snapshot key)).Nodup :=
  List.Nodup.sublist (words_sublist (List.filter_sublist snapshot)) hw

theorem bucket_words_in_snap {snapshot : List WordRecord} {key : String} {x : String}
    (hx : x ∈ wordsOf (catBucket snapshot key)) : x ∈ wordsOf snapshot :=
  (words_sublist (List.filter_sublist snapshot)).subset hx

theorem newPool_words_not_in_snap {vocabulary : List CatalogEntry}
    {snapshot : List WordRecord} {x : String}
    (hx : x ∈ catWords (vocabulary.filter (fun v => !(snapWords snapshot).contains v.word))) :
    x ∉ wordsOf snapshot := by
  simp only [catWords, List.mem_map, List.mem_filter] at hx
  obtain ⟨v, ⟨hv, hnc⟩, rfl⟩ := hx
  simp only [snapWords] at hnc
  simp only [wordsOf]
  simpa using hnc

/-- Witness for the amended size claim on concrete one-element data with
identity shuffles. -/
theorem dailySelection_size_amended_witness :
    (selectUntargeted cexVocab cexSnap 0 id id id id id).length
      = min TARGET_COUNT (untargetedCappedTotal cexVocab cexSnap 0) ∧
    (selectUntargeted cexVocab cexSnap 0 id id id id id).length ≤ TARGET_COUNT ∧
    (selectTopic cexVocab cexSnap "t" 0 id id id id).length
      = min TARGET_COUNT (topicBucketTotal cexVocab cexSnap "t" 0) ∧
    (selectTopic cexVocab cexSnap "t" 0 id id id id).length ≤ TARGET_COUNT ∧
    (TARGET_COUNT ≤ topicBucketTotal cexVocab cexSnap "t" 0 →
      (selectTopic cexVocab cexSnap "t" 0 id id id id).length = TARGET_COUNT) :=
  dailySelection_size_amended cexVocab cexSnap "t" 0 id id id id id id id id id
    (fun l => List.Perm.refl l) (fun l => List.Perm.refl l) (fun l => List.Perm.refl l)
    (fun l => List.Perm.refl l) (fun l => List.Perm.refl l) (fun l => List.Perm.refl l)
    (fun l => List.Perm.refl l) (fun l => List.Perm.refl l) (fun l => List.Perm.refl l)

theorem untargeted_master_nodup (vocabulary : List CatalogEntry)
    (snapshot : List WordRecord) (now : Int)
    (hw : (wordsOf snapshot).Nodup) (hv : (catWords vocabulary).Nodup) :
    (((wordsOf (catBucket snapshot "weak")
        ++ wordsOf ((catBucket snapshot "learning").filter (fun w => isCool now w.last_seen)))
        ++ catWords (vocabulary.filter (fun v => !(snapWords snapshot).contains v.word)))
        ++ wordsOf (catBucket snapshot "known")).Nodup := by
  have hbW := catBucket_words_nodup hw "weak"
  have hbK := catBucket_words_nodup hw "known"
  have hbL : (wordsOf ((catBucket snapshot "learning").filter
      (fun w => isCool now w.last_seen))).Nodup :=
    List.Nodup.sublist (words_sublist (List.filter_sublist _)) (catBucket_words_nodup hw "learning")
  have hbN : (catWords (vocabulary.filter
      (fun v => !(snapWords snapshot).contains v.word))).Nodup :=
    List.Nodup.sublist (catWords_sublist (List.filter_sublist _)) hv
  have hsubL : wordsOf ((catBucket snapshot "learning").filter (fun w => isCool now w.last_seen))
      ⊆ wordsOf (catBucket snapshot "learning") :=
    (words_sublist (List.filter_sublist _)).subset
  have hWL := catBucket_words_disjoint hw "weak" "learning" (by decide)
  have hWK := catBucket_words_disjoint hw "weak" "known" (by decide)
  have hLK := catBucket_words_disjoint hw "learning" "known" (by decide)
  rw [List.nodup_append]
  refine ⟨?_, hbK, ?_⟩
  · rw [List.nodup_append]
    refine ⟨?_, hbN, ?_⟩
    · rw [List.nodup_append]
      exact ⟨hbW, hbL, fun x hx hx2 => hWL hx (hsubL hx2)⟩
    · intro x hx hxN
      rcases List.mem_append.mp hx with hx | hxL
      · exact newPool_words_not_in_snap hxN (bucket_words_in_snap hx)
      · exact newPool_words_not_in_snap hxN (bucket_words_in_snap (hsubL hxL))
  · intro x hx hxK
    rcases List.mem_append.mp hx with hx | hxN
    · rcases List.mem_append.mp hx with hxW | hxL
      · exact hWK hxW hxK
      · exact hLK (hsubL hxL) hxK
    · exact newPool_words_not_in_snap hxN (bucket_words_in_snap hxK)

theorem selectUntargeted_words_subperm (vocabulary : List CatalogEntry)
    (snapshot : List WordRecord) (now : Int)
    (shWeak shLearning shKnown shFinal : List WordRecord → List WordRecord)
    (shNewPool : List CatalogEntry → List CatalogEntry)
    (h1 : IsShuffler shWeak) (h2 : IsShuffler shLearning) (h3 : IsShuffler shKnown)
    (h4 : IsShuffler shFinal) (h5 : IsShuffler shNewPool) :
    wordsOf (selectUntargeted vocabulary snapshot now shWeak shLearning shKnown shFinal
        shNewPool)
      <+~ (((wordsOf (catBucket snapshot "weak")
        ++ wordsOf ((catBucket snapshot "learning").filter (fun w => isCool now w.last_seen)))
        ++ catWords (vocabulary.filter (fun v => !(snapWords snapshot).contains v.word)))
        ++ wordsOf (catBucket snapshot "known")) := by
  simp only [selectUntargeted]
  refine ((words_shuffle_perm h4 _).subperm).trans ?_
  have hA := words_take_shuffle_subperm h1 (catBucket snapshot "weak") distributionWeak
  have hB := words_take_shuffle_subperm h2
    ((catBucket snapshot "learning").filter (fun w => isCool now w.last_seen))
    distributionLearning
  have hChard : ∀ n : Nat,
      wordsOf (((shNewPool
        ((vocabulary.filter (fun v => !(snapWords snapshot).contains v.word)).filter
          (fun w => w.level ∈ advancesLevels))).take n).map newEntry)
        <+~ catWords (vocabulary.filter (fun v => !(snapWords snapshot).contains v.word)) := by
    intro n
    rw [words_newEntries]
    exact (catWords_take_shuffle_subperm h5 _ n).trans
      (catWords_sublist (List.filter_sublist _)).subperm
  have hCfull : ∀ n : Nat,
      wordsOf (((shNewPool
        (vocabulary.filter (fun v => !(snapWords snapshot).contains v.word))).take n).map
          newEntry)
        <+~ catWords (vocabulary.filter (fun v => !(snapWords snapshot).contains v.word)) := by
    intro n
    rw [words_newEntries]
    exact catWords_take_shuffle_subperm h5 _ n
  split
  all_goals split
  · rw [words_append, words_append, words_append]
    exact subperm_append_both
      (subperm_append_both (subperm_append_both hA hB) (hChard _))
      (words_take_shuffle_subperm h3 _ _)
  · rw [words_append, words_append]
    exact (subperm_append_both (subperm_append_both hA hB) (hChard _)).trans
      (subperm_append_left_self _)
  · rw [words_append, words_append, words_append]
    exact subperm_append_both
      (subperm_append_both (subperm_append_both hA hB) (hCfull _))
      (words_take_shuffle_subperm h3 _ _)
  · rw [words_append, words_append]
    exact (subperm_append_both (subperm_append_both hA hB) (hCfull _)).trans
      (subperm_append_left_self _)

theorem mapGet_word {snapshot : List WordRecord} {w : String} {u : WordRecord}
    (h : mapGet snapshot w = some u) : u.word = w := by
  unfold mapGet at h
  have := List.find?_some h
  simpa using this

theorem words_matchedInClass (snapshot : List WordRecord) (now : Int) (b : TopicBucket)
    (ws : List CatalogEntry) :
    wordsOf (matchedInClass snapshot now b ws)
      = catWords (ws.filter (matchedCond snapshot now b)) := by
  induction ws with
  | nil => rfl
  | cons w rest ih =>
    simp only [matchedInClass, List.filterMap_cons, List.filter_cons] at *
    cases hm : mapGet snapshot w.word with
    | none => simpa [matchedCond, hm] using ih
    | some u =>
      by_cases hc : topicClass now u == b
      · simpa [matchedCond, hm, hc, wordsOf, catWords, mapGet_word hm] using ih
      · simpa [matchedCond, hm, hc] using ih

theorem filter_words_disjoint {ws : List CatalogEntry} (hws : (catWords ws).Nodup)
    {p q : CatalogEntry → Bool} (hpq : ∀ w, ¬(p w = true ∧ q w = true)) :
    List.Disjoint (catWords (ws.filter p)) (catWords (ws.filter q)) := by
  intro x hx1 hx2
  simp only [catWords, List.mem_map, List.mem_filter] at hx1 hx2
  obtain ⟨w1, ⟨hw1, hp1⟩, rfl⟩ := hx1
  obtain ⟨w2, ⟨hw2, hp2⟩, he⟩ := hx2
  cases List.inj_on_of_nodup_map (by simpa [catWords] using hws) hw2 hw1 he
  exact hpq w1 ⟨hp1, hp2⟩

theorem matchedCond_exclusive (snapshot : List WordRecord) (now : Int)
    (b1 b2 : TopicBucket) (hb : b1 ≠ b2) (w : CatalogEntry) :
    ¬(matchedCond snapshot now b1 w = true ∧ matchedCond snapshot now b2 w = true) := by
  unfold matchedCond
  cases hm : mapGet snapshot w.word with
  | none => simp
  | some u =>
    simp only [beq_iff_eq]
    rintro ⟨rfl, rfl⟩
    exact hb rfl

theorem newCond_exclusive (snapshot : List WordRecord) (now : Int) (b : TopicBucket)
    (w : CatalogEntry) :
    ¬(((mapGet snapshot w.word).isNone : Bool) = true ∧ matchedCond snapshot now b w = true) := by
  unfold matchedCond
  cases hm : mapGet snapshot w.word with
  | none => simp
  | some u => simp

theorem topic_master_nodup (snapshot : List WordRecord) (now : Int)
    (ws : List CatalogEntry) (hws : (catWords ws).Nodup) :
    (((wordsOf ((ws.filter (fun w => (mapGet snapshot w.word).isNone)).map newEntry)
        ++ wordsOf (matchedInClass snapshot now .review ws))
        ++ wordsOf (matchedInClass snapshot now .reviewFallback ws))
        ++ wordsOf (matchedInClass snapshot now .knownFallback ws)).Nodup := by
  rw [words_newEntries, words_matchedInClass, words_matchedInClass, words_matchedInClass]
  have hnN : (catWords (ws.filter (fun w => (mapGet snapshot w.word).isNone))).Nodup :=
    List.Nodup.sublist (catWords_sublist (List.filter_sublist _)) hws
  have hnR : (catWords (ws.filter (matchedCond snapshot now .review))).Nodup :=
    List.Nodup.sublist (catWords_sublist (List.filter_sublist ws)) hws
  have hnRF : (catWords (ws.filter (matchedCond snapshot now .reviewFallback))).Nodup :=
    List.Nodup.sublist (catWords_sublist (List.filter_sublist ws)) hws
  have hnKF : (catWords (ws.filter (matchedCond snapshot now .knownFallback))).Nodup :=
    List.Nodup.sublist (catWords_sublist (List.filter_sublist ws)) hws
  have hNR := filter_words_disjoint hws (newCond_exclusive snapshot now .review)
  have hNRF := filter_words_disjoint hws (newCond_exclusive snapshot now .reviewFallback)
  have hNKF := filter_words_disjoint hws (newCond_exclusive snapshot now .knownFallback)
  have hRRF := filter_words_disjoint hws
    (matchedCond_exclusive snapshot now .review .reviewFallback (by decide))
  have hRKF := filter_words_disjoint hws
    (matchedCond_exclusive snapshot now .review .knownFallback (by decide))
  have hRFKF := filter_words_disjoint hws
    (matchedCond_exclusive snapshot now .reviewFallback .knownFallback (by decide))
  rw [List.nodup_append]
  refine ⟨?_, hnKF, ?_⟩
  · rw [List.nodup_append]
    refine ⟨?_, hnRF, ?_⟩
    · rw [List.nodup_append]
      exact ⟨hnN, hnR, hNR⟩
    · intro x hx hx2
      rcases List.mem_append.mp hx with hx | hx
      · exact hNRF hx hx2
      · exact hRRF hx hx2
  · intro x hx hx2
    rcases List.mem_append.mp hx with hx | hx
    · rcases List.mem_append.mp hx with hx | hx
      · exact hNKF hx hx2
      · exact hRKF hx hx2
    · exact hRFKF hx hx2

theorem cascade_append_subperm {sel bucket : List WordRecord} {M : List String}
    {sh : List WordRecord → List WordRecord} (hsh : IsShuffler sh)
    (hsel : wordsOf sel <+~ M) (c : Prop) (inst : Decidable c) (n : Nat) :
    wordsOf (if c then sel ++ (sh bucket).take n else sel) <+~ M ++ wordsOf bucket := by
  split
  · rw [words_append]
    exact subperm_append_both hsel (words_take_shuffle_subperm hsh bucket n)
  · exact hsel.trans (subperm_append_left_self _)

theorem selectTopic_words_subperm (vocabulary : List CatalogEntry)
    (snapshot : List WordRecord) (rawTopic : String) (now : Int)
    (shNew shReview shReviewFb shKnownFb : List WordRecord → List WordRecord)
    (h1 : IsShuffler shNew) (h2 : IsShuffler shReview) (h3 : IsShuffler shReviewFb)
    (h4 : IsShuffler shKnownFb) :
    wordsOf (selectTopic vocabulary snapshot rawTopic now shNew shReview shReviewFb
        shKnownFb)
      <+~ (((wordsOf (((vocabulary.filter (fun w => hasTag w (jsToLower rawTopic))).filter
              (fun w => (mapGet snapshot w.word).isNone)).map newEntry)
        ++ wordsOf (matchedInClass snapshot now .review
              (vocabulary.filter (fun w => hasTag w (jsToLower rawTopic)))))
        ++ wordsOf (matchedInClass snapshot now .reviewFallback
              (vocabulary.filter (fun w => hasTag w (jsToLower rawTopic)))))
        ++ wordsOf (matchedInClass snapshot now .knownFallback
              (vocabulary.filter (fun w => hasTag w (jsToLower rawTopic))))) := by
  simp only [selectTopic, topicPartition_closed]
  refine (((List.take_sublist _ _).map _).subperm).trans ?_
  exact cascade_append_subperm h4
    (cascade_append_subperm h3
      (cascade_append_subperm h2 ((words_shuffle_perm h1 _).subperm) _ _ _) _ _ _) _ _ _

theorem mem_wordsOf {l : List WordRecord} {x : String} :
    x ∈ wordsOf l ↔ ∃ r ∈ l, r.word = x := by
  simp [wordsOf]

theorem mem_catWords {l : List CatalogEntry} {x : String} :
    x ∈ catWords l ↔ ∃ c ∈ l, c.word = x := by
  simp [catWords]

/-- C6: no word appears twice in one daily selection, in either mode,
for snapshots and catalogs whose own word keys are duplicate-free (the
snapshot collection is keyed by word and the catalog is a master list),
whatever the shuffles do. -/
theorem dailySelection_no_duplicates (vocabulary : List CatalogEntry)
    (snapshot : List WordRecord) (rawTopic : String) (now : Int)
    (shWeak shLearning shKnown shFinal shNew shReview shReviewFb shKnownFb :
      List WordRecord → List WordRecord)
    (shNewPool : List CatalogEntry → List CatalogEntry)
    (h1 : IsShuffler shWeak) (h2 : IsShuffler shLearning) (h3 : IsShuffler shKnown)
    (h4 : IsShuffler shFinal) (h5 : IsShuffler shNewPool)
    (h6 : IsShuffler shNew) (h7 : IsShuffler shReview) (h8 : IsShuffler shReviewFb)
    (h9 : IsShuffler shKnownFb)
    (hw : (wordsOf snapshot).Nodup) (hv : (catWords vocabulary).Nodup) :
    (wordsOf (selectUntargeted vocabulary snapshot now shWeak shLearning shKnown shFinal
        shNewPool)).Nodup ∧
    (wordsOf (selectTopic vocabulary snapshot rawTopic now shNew shReview shReviewFb
        shKnownFb)).Nodup := by
  constructor
  · exact subperm_nodup
      (selectUntargeted_words_subperm vocabulary snapshot now shWeak shLearning shKnown
        shFinal shNewPool h1 h2 h3 h4 h5)
      (untargeted_master_nodup vocabulary snapshot now hw hv)
  · exact subperm_nodup
      (selectTopic_words_subperm vocabulary snapshot rawTopic now shNew shReview
        shReviewFb shKnownFb h6 h7 h8 h9)
      (topic_master_nodup snapshot now _
        (List.Nodup.sublist (catWords_sublist (List.filter_sublist _)) hv))

/-- Witness for the duplicate-freedom claim on concrete data with
identity shuffles. -/
theorem dailySelection_no_duplicates_witness :
    (wordsOf (selectUntargeted cexVocab cexSnap 0 id id id id id)).Nodup ∧
    (wordsOf (selectTopic cexVocab cexSnap "t" 0 id id id id)).Nodup :=
  dailySelection_no_duplicates cexVocab cexSnap "t" 0 id id id id id id id id id
    (fun l => List.Perm.refl l) (fun l => List.Perm.refl l) (fun l => List.Perm.refl l)
    (fun l => List.Perm.refl l) (fun l => List.Perm.refl l) (fun l => List.Perm.refl l)
    (fun l => List.Perm.refl l) (fun l => List.Perm.refl l) (fun l => List.Perm.refl l)
    (by decide) (by decide)

/-- C10: a stored snapshot record with an absent or empty status is
bucketed nowhere, and since its word is in the snapshot map it is also
kept out of the new pool, so its word never appears in an untargeted
selection. -/
theorem falsy_status_excluded (vocabulary : List CatalogEntry)
    (snapshot : List WordRecord) (now : Int)
    (shWeak shLearning shKnown shFinal : List WordRecord → List WordRecord)
    (shNewPool : List CatalogEntry → List CatalogEntry)
    (h1 : IsShuffler shWeak) (h2 : IsShuffler shLearning) (h3 : IsShuffler shKnown)
    (h4 : IsShuffler shFinal) (h5 : IsShuffler shNewPool)
    (hw : (wordsOf snapshot).Nodup) (r : WordRecord) (hr : r ∈ snapshot)
    (hst : r.status = none ∨ r.status = some "") :
    (∀ key, r ∉ catBucket snapshot key) ∧
    r.word ∉ wordsOf (selectUntargeted vocabulary snapshot now shWeak shLearning shKnown
        shFinal shNewPool) := by
  have hb : bucketOf r = none := by rcases hst with h | h <;> simp [bucketOf, h]
  have hword : r.word ∈ wordsOf snapshot := mem_wordsOf.mpr ⟨r, hr, rfl⟩
  have hcase : ∀ key, r.word ∉ wordsOf (catBucket snapshot key) := by
    intro key hk
    obtain ⟨r2, hr2, he⟩ := mem_wordsOf.mp hk
    rw [mem_catBucket_iff] at hr2
    cases eq_of_word_eq hw hr2.1 hr he
    exact Option.noConfusion (hb ▸ hr2.2)
  constructor
  · intro key hk
    rw [mem_catBucket_iff] at hk
    exact Option.noConfusion (hb ▸ hk.2)
  · intro hmem
    have hmas := (selectUntargeted_words_subperm vocabulary snapshot now shWeak shLearning
      shKnown shFinal shNewPool h1 h2 h3 h4 h5).subset hmem
    rcases List.mem_append.mp hmas with hx | hxK
    · rcases List.mem_append.mp hx with hx | hxN
      · rcases List.mem_append.mp hx with hxW | hxL
        · exact hcase "weak" hxW
        · exact hcase "learning" ((words_sublist (List.filter_sublist _)).subset hxL)
      · exact newPool_words_not_in_snap hxN hword
    · exact hcase "known" hxK

/-- Witness for the falsy-status exclusion on a one-record snapshot. -/
theorem falsy_status_excluded_witness :
    (∀ key, noStatusRec ∉ catBucket ghostSnap key) ∧
    noStatusRec.word ∉ wordsOf (selectUntargeted cexVocab ghostSnap 0 id id id id id) :=
  falsy_status_excluded cexVocab ghostSnap 0 id id id id id
    (fun l => List.Perm.refl l) (fun l => List.Perm.refl l) (fun l => List.Perm.refl l)
    (fun l => List.Perm.refl l) (fun l => List.Perm.refl l)
    (by decide) noStatusRec (by decide) (Or.inl rfl)

theorem char_toLower_idem (c : Char) : Char.toLower (Char.toLower c) = Char.toLower c := by
  by_cases h : 65 ≤ c.toNat ∧ c.toNat ≤ 90
  · obtain ⟨h1, h2⟩ := h
    have hlow : Char.toLower c = Char.ofNat (c.toNat + 32) := by
      simp only [Char.toLower]
      rw [if_pos ⟨h1, h2⟩]
    rw [hlow]
    set n := c.toNat with hn
    interval_cases n <;> decide
  · have hlow : Char.toLower c = c := by
      simp only [Char.toLower]
      rw [if_neg h]
    rw [hlow, hlow]

theorem jsToLower_idem (s : String) : jsToLower (jsToLower s) = jsToLower s := by
  show String.mk (List.map Char.toLower (List.map Char.toLower s.data)) =
    String.mk (List.map Char.toLower s.data)
  rw [List.map_map]
  exact congrArg String.mk (List.map_congr_left (fun c _ => char_toLower_idem c))

theorem hasTag_unpack {c : CatalogEntry} {topic : String}
    (h : hasTag c topic = true) : ∃ ts, c.tags = some ts ∧ topic ∈ ts := by
  unfold hasTag at h
  cases hc : c.tags with
  | none => rw [hc] at h; cases h
  | some ts =>
    rw [hc] at h
    exact ⟨ts, rfl, by simpa using h⟩

/-- C7: every entry of a topic-mode selection corresponds to a catalog
word one of whose tags equals the lowercased request topic, and hence
matches the requested topic case-insensitively (equal after
lowercasing both sides). -/
theorem selectTopic_topic_filter (vocabulary : List CatalogEntry)
    (snapshot : List WordRecord) (rawTopic : String) (now : Int)
    (shNew shReview shReviewFb shKnownFb : List WordRecord → List WordRecord)
    (h1 : IsShuffler shNew) (h2 : IsShuffler shReview) (h3 : IsShuffler shReviewFb)
    (h4 : IsShuffler shKnownFb) (e : WordRecord)
    (he : e ∈ selectTopic vocabulary snapshot rawTopic now shNew shReview shReviewFb
        shKnownFb) :
    ∃ c ∈ vocabulary, c.word = e.word ∧ ∃ ts, c.tags = some ts ∧
      ∃ t ∈ ts, jsToLower t = jsToLower rawTopic := by
  have hmem : e.word ∈ wordsOf (selectTopic vocabulary snapshot rawTopic now shNew
      shReview shReviewFb shKnownFb) := mem_wordsOf.mpr ⟨e, he, rfl⟩
  have hmas := (selectTopic_words_subperm vocabulary snapshot rawTopic now shNew shReview
    shReviewFb shKnownFb h1 h2 h3 h4).subset hmem
  have htw : e.word ∈ catWords (vocabulary.filter (fun w => hasTag w (jsToLower rawTopic))) := by
    rcases List.mem_append.mp hmas with hx | hx
    · rcases List.mem_append.mp hx with hx | hx
      · rcases List.mem_append.mp hx with hx | hx
        · rw [words_newEntries] at hx
          exact (catWords_sublist (List.filter_sublist _)).subset hx
        · rw [words_matchedInClass] at hx
          exact (catWords_sublist (List.filter_sublist _)).subset hx
      · rw [words_matchedInClass] at hx
        exact (catWords_sublist (List.filter_sublist _)).subset hx
    · rw [words_matchedInClass] at hx
      exact (catWords_sublist (List.filter_sublist _)).subset hx
  obtain ⟨c, hc, hcw⟩ := mem_catWords.mp htw
  rw [List.mem_filter] at hc
  obtain ⟨ts, hts, htopic⟩ := hasTag_unpack hc.2
  exact ⟨c, hc.1, hcw, ts, hts, jsToLower rawTopic, htopic, jsToLower_idem rawTopic⟩

/-- Witness for the topic-filter claim: the weak record returned for
topic t comes from the tagged catalog word. -/
theorem selectTopic_topic_filter_witness :
    ∃ c ∈ cexVocab, c.word = (weakRec "amber").word ∧ ∃ ts, c.tags = some ts ∧
      ∃ t ∈ ts, jsToLower t = jsToLower "t" :=
  selectTopic_topic_filter cexVocab cexSnap "t" 0 id id id id
    (fun l => List.Perm.refl l) (fun l => List.Perm.refl l) (fun l => List.Perm.refl l)
    (fun l => List.Perm.refl l) (weakRec "amber") (by decide)

end LinguaMentor
